import Mathlib

/-!
Shallow embedding of the building_to_3d_models core pipeline.

Machine reals of the Python source are modelled as exact rationals (ℚ);
pixel intensities as naturals; Python dicts keyed by image id as
functions `String → Option _`; raised exceptions as `Except String _`.
Each definition cites the source file and lines it is translated from.
-/

namespace BuildingTo3D

/-- A 2D point with rational coordinates (pixel or real-world units). -/
abbrev Point := ℚ × ℚ

/-! ## ScaleConverter (src/backend/image_processing/scale_converter.py) -/

/-- One entry of the backend converter's `scales` dict (lines 25-28). -/
structure ScaleInfo where
  scale_factor : ℚ
  unit : String
deriving DecidableEq

/-- The `self.scales` dict of the backend `ScaleConverter`, keyed by image id. -/
def Scales := String → Option ScaleInfo

/-- Fresh converter state (`__init__`, line 8): no image is calibrated. -/
def Scales.empty : Scales := fun _ => none

/-- `ScaleConverter.set_scale` (lines 10-30): stores
`scale_factor = real_length / pixel_length` for `image_id` and returns the
updated dict together with the factor.  Python raises `ZeroDivisionError`
when `pixel_length = 0`; in ℚ that division yields 0, and the theorems
below only use nonzero calibration lengths. -/
def set_scale (s : Scales) (image_id : String) (pixel_length real_length : ℚ)
    (unit : String) : Scales × ℚ :=
  let scale_factor := real_length / pixel_length
  (fun id => if id = image_id then some ⟨scale_factor, unit⟩ else s id, scale_factor)

/-- `ScaleConverter.get_scale` (lines 32-42): looks up the image id and
falls back to the default `{scale_factor: 1.0, unit: 'meters'}` when the
id was never calibrated — it does not raise. -/
def get_scale (s : Scales) (image_id : String) : ScaleInfo :=
  (s image_id).getD ⟨1, "meters"⟩

/-- `ScaleConverter.pixels_to_real` (lines 44-56). -/
def pixels_to_real (s : Scales) (image_id : String) (pixels : ℚ) : ℚ :=
  pixels * (get_scale s image_id).scale_factor

/-- `ScaleConverter.real_to_pixels` (lines 58-70). -/
def real_to_pixels (s : Scales) (image_id : String) (real_length : ℚ) : ℚ :=
  real_length / (get_scale s image_id).scale_factor

/-! ## Deployment-tier ScaleConverter
(src/deployment/api/image_processing/scale_converter.py) — this variant
guards conversions and raises when no scale was set.  Only the scalar
branch of each conversion is embedded (the list/array branches convert
coordinate pairs with the same guard). -/

/-- One entry of the deployment converter's `scale_factors` dict (lines 33-38). -/
structure DeployScaleInfo where
  scale_factor : ℚ
  original_unit : String
  pixel_length : ℚ
  real_length : ℚ
deriving DecidableEq

/-- The `self.scale_factors` dict of the deployment `ScaleConverter`. -/
def DeployScales := String → Option DeployScaleInfo

/-- Fresh deployment converter state (line 11). -/
def DeployScales.empty : DeployScales := fun _ => none

/-- `_convert_to_meters` (lines 156-176); `0.3048`, `0.0254`, `0.01` are
exact rationals.  An unsupported unit raises `ValueError`. -/
def convert_to_meters (length : ℚ) (unit : String) : Except String ℚ :=
  if unit = "meters" then .ok length
  else if unit = "feet" then .ok (length * (3048 / 10000))
  else if unit = "inches" then .ok (length * (254 / 10000))
  else if unit = "cm" then .ok (length * (1 / 100))
  else .error ("Unsupported unit: " ++ unit)

/-- `_convert_from_meters` (lines 178-198). -/
def convert_from_meters (length_meters : ℚ) (unit : String) : Except String ℚ :=
  if unit = "meters" then .ok length_meters
  else if unit = "feet" then .ok (length_meters / (3048 / 10000))
  else if unit = "inches" then .ok (length_meters / (254 / 10000))
  else if unit = "cm" then .ok (length_meters / (1 / 100))
  else .error ("Unsupported unit: " ++ unit)

/-- `pixels_to_real_world` (lines 62-83), scalar branch: raises
`ValueError("No scale factor set for image ...")` for an uncalibrated id,
otherwise multiplies by the stored factor and converts units. -/
def pixels_to_real_world (s : DeployScales) (image_id : String) (pixels : ℚ)
    (output_unit : String) : Except String ℚ :=
  match s image_id with
  | none => .error ("No scale factor set for image " ++ image_id)
  | some info => convert_from_meters (pixels * info.scale_factor) output_unit

/-- `real_world_to_pixels` (lines 110-131), scalar branch: same guard,
then converts to meters and divides by the stored factor. -/
def real_world_to_pixels (s : DeployScales) (image_id : String) (real_world : ℚ)
    (input_unit : String) : Except String ℚ :=
  match s image_id with
  | none => .error ("No scale factor set for image " ++ image_id)
  | some info =>
      (convert_to_meters real_world input_unit).map fun m => m / info.scale_factor

/-! ## FeatureExtractor (src/backend/image_processing/feature_extractor.py) -/

/-- Wall orientation classification, `_process_walls` lines 83-86.  The two
source statements are kept in order: the first picks horizontal or
vertical from the angle buckets, the second overwrites with diagonal on
`[45,135)`.  The angle itself is `np.degrees(np.arctan2(dy, dx)) % 180`;
real-valued trigonometry is abstracted as the rational parameter `angle`,
which the source always supplies in `[0,180)`. -/
def classifyOrientation (angle : ℚ) : String :=
  let o := if (0 ≤ angle ∧ angle < 45) ∨ (135 ≤ angle ∧ angle < 180)
    then "horizontal" else "vertical"
  if 45 ≤ angle ∧ angle < 135 then "diagonal" else o

/-- The enriched wall record built in `_process_walls` lines 89-96, given
the already-computed length, thickness and angle. -/
structure ProcessedWall where
  points : Point × Point
  length : ℚ
  thickness : ℚ
  angle : ℚ
  tag : String
deriving DecidableEq

/-- `_process_walls` loop body (lines 70-98) for one wall: the source sets
the record field named `orientation` to the classification of `angle`
(field named `tag` here). -/
def enrichWall (points : Point × Point) (length thickness angle : ℚ) : ProcessedWall :=
  ⟨points, length, thickness, angle, classifyOrientation angle⟩

/-- Aspect ratio of a window, `_process_windows` line 203: the division is
guarded by `height > 0`, a zero or negative height yields 0. -/
def windowAspect (width height : ℚ) : ℚ :=
  if height > 0 then width / height else 0

/-- Window subtype chain, `_process_windows` lines 206-212: starts at
`standard`, then `aspect > 2` → horizontal, `aspect < 0.5` → vertical,
`area > 10000` → picture. -/
def windowType (width height : ℚ) : String :=
  let area := width * height
  let aspect := windowAspect width height
  if aspect > 2 then "horizontal"
  else if aspect < 1 / 2 then "vertical"
  else if area > 10000 then "picture"
  else "standard"

/-- A detected window as consumed by `_process_windows` (points, width,
height keys of the input dict). -/
structure DetectedWindow where
  points : List Point
  width : ℚ
  height : ℚ
deriving DecidableEq

/-- The enriched window record of `_process_windows` lines 215-223. -/
structure ProcessedWindow where
  points : List Point
  width : ℚ
  height : ℚ
  area : ℚ
  aspect : ℚ
  window_type : String
deriving DecidableEq

/-- `_process_windows` (lines 180-227): per-window enrichment; `area` and
the aspect ratio and subtype are functions of width and height alone. -/
def process_windows (windows : List DetectedWindow) : List ProcessedWindow :=
  windows.map fun w =>
    ⟨w.points, w.width, w.height, w.width * w.height,
      windowAspect w.width w.height, windowType w.width w.height⟩

/-- Thresholding of one perpendicular intensity profile,
`_estimate_wall_thickness` lines 165-166: pixels darker than mid-gray 128
become 255, the rest 0. -/
def binaryProfile (profile : List ℕ) : List ℕ :=
  profile.map fun p => if p < 128 then 255 else 0

/-- Indices where `np.diff` of the binary profile is nonzero (lines
169-170): positions whose successor pixel differs. -/
def transitionIndices (bp : List ℕ) : List ℕ :=
  (List.range (bp.length - 1)).filter fun i => decide (bp.getD (i + 1) 0 ≠ bp.getD i 0)

/-- Per-sample thickness (lines 172-175): when at least two transitions
exist, the distance between the first and the last transition index;
otherwise the sample contributes nothing. -/
def profileThickness (profile : List ℕ) : Option ℕ :=
  let ti := transitionIndices (binaryProfile profile)
  if 2 ≤ ti.length then some (ti.getLast?.getD 0 - ti.head?.getD 0) else none

/-- `_estimate_wall_thickness` (lines 102-178).  The source samples 5
points along the wall and reads a perpendicular intensity profile at each
with floating-point geometry; the estimate depends on the image and the
endpoints only through the list of sampled profiles, which is taken as
the argument here.  Result: the mean of the per-sample thicknesses, or
the default 1.0 when no sample yields one (line 178). -/
def estimate_wall_thickness (profiles : List (List ℕ)) : ℚ :=
  let thicknesses := profiles.filterMap profileThickness
  if thicknesses.isEmpty then 1
  else ((thicknesses.map fun (t : ℕ) => (t : ℚ)).sum) / thicknesses.length

/-- Shoelace contour area over integer points: `cv2.contourArea` of
`_extract_rooms` line 340 computes exactly half the absolute cyclic cross
sum for an integer-point polygon. -/
def contourArea (pts : List (ℤ × ℤ)) : ℚ :=
  (((pts.zip (pts.rotate 1)).map fun (q : (ℤ × ℤ) × (ℤ × ℤ)) =>
    q.1.1 * q.2.2 - q.2.1 * q.1.2).sum.natAbs : ℚ) / 2

/-- A room record as emitted by `_extract_rooms` lines 356-362; the
centroid (image moments) and the segmentation label are omitted, no claim
concerns them. -/
structure Room where
  points : List (ℤ × ℤ)
  area : ℚ
deriving DecidableEq

/-- The area-filtering loop of `_extract_rooms` (lines 324-364).  The
watershed segmentation and `measure.find_contours` are external image
operations; the loop is embedded over the per-label largest-contour point
lists they produce.  A candidate is skipped exactly when `area < 1000`
(lines 342-344) — area exactly 1000 survives. -/
def extract_rooms (candidates : List (List (ℤ × ℤ))) : List Room :=
  candidates.filterMap fun pts =>
    let area := contourArea pts
    if area < 1000 then none
    else some ⟨pts, area⟩

/-! ## BuildingReconstructor (src/building_reconstructor.py) -/

/-- One elevation input, reduced to the `y_position` values of its
`elevation_data.floor_levels` list — the only data `_extract_floor_heights`
reads from it (lines 207-213). -/
abbrev Elevation := List ℚ

/-- Absolute value of a rational, written out so that concrete instances
evaluate inside the kernel; `ratAbs_eq_abs` below identifies it with `|·|`. -/
def ratAbs (q : ℚ) : ℚ := if q < 0 then -q else q

/-- The duplicate-collapsing loop of `_extract_floor_heights` lines
222-225: walking the tail of the sorted list, a level is kept only when it
differs from the last kept level by more than the 0.5-unit tolerance. -/
def dedupLoop (lastKept : ℚ) : List ℚ → List ℚ
  | [] => []
  | l :: ls =>
    if ratAbs (l - lastKept) > 1 / 2 then l :: dedupLoop l ls else dedupLoop lastKept ls

/-- `unique_levels` (lines 221-225): the head of the sorted list is always
kept, the tail is filtered by `dedupLoop`. -/
def uniqueLevels : List ℚ → List ℚ
  | [] => []
  | x :: xs => x :: dedupLoop x xs

/-- `_extract_floor_heights` (lines 193-239): pool every level, sort in
descending order (`sort(reverse=True)`, modelled by `insertionSort (· ≥ ·)`),
collapse near-duplicates, subtract the lowest surviving level and force
the lowest entry to exactly 0; with no levels at all, synthesize
3.0-per-floor heights sized to the number of elevations (minimum 1). -/
def extract_floor_heights (elevations : List Elevation) : List ℚ :=
  let all_levels := elevations.flatten
  if all_levels.isEmpty then
    (List.range (max 1 elevations.length)).map fun i => (i : ℚ) * 3
  else
    let sorted := all_levels.insertionSort (· ≥ ·)
    let uniq := uniqueLevels sorted
    let ground := uniq.getLast?.getD 0
    let heights := uniq.map fun l => l - ground
    heights.set (heights.length - 1) 0

/-- A 2D wall as read by `_create_walls` from a floor plan's feature dict:
its `points` list and optional detected `thickness`. -/
structure Wall2D where
  points : List Point
  thickness : Option ℚ
deriving DecidableEq

/-- A floor plan, reduced to the `features['walls']` list — the only data
`_create_walls` reads from it (line 266). -/
structure FloorPlan where
  walls : List Wall2D
deriving DecidableEq

/-- A 3D wall record as built in `_create_walls` lines 273-279. -/
structure Wall3D where
  points : List Point
  height : ℚ
  base_height : ℚ
  thickness : ℚ
deriving DecidableEq

/-- `_create_walls` (lines 241-282): floor `i` gets
`base_height = floor_heights[i]` (0 when out of range, line 257) and
`next_height = floor_heights[i-1]` for `i > 0`, else `floor_height + 3.0`
(line 260); each wall with at least two points becomes a 3D wall of height
`next_height - floor_height` with its thickness or the default 0.2.
Python raises `IndexError` when `i - 1` is out of range; `getD _ 0` stands
in for it and the theorems below stay within range. -/
def create_walls (floor_plans : List FloorPlan) (floor_heights : List ℚ) : List Wall3D :=
  (floor_plans.enum.map fun p =>
    let i := p.1
    let floor_height := floor_heights.getD i 0
    let next_height := if 0 < i then floor_heights.getD (i - 1) 0 else floor_height + 3
    let wall_height := next_height - floor_height
    p.2.walls.filterMap fun w =>
      if 2 ≤ w.points.length then
        some ⟨w.points, wall_height, floor_height, w.thickness.getD (1 / 5)⟩
      else none).flatten

/-- The assembled building model (`reconstruct_building` lines 53-59),
restricted to the `floors` and `walls` entries; the outline, openings,
roof and mesh are built with external geometry libraries (trimesh convex
hull, mesh export) and no claim concerns them. -/
structure BuildingModel where
  floors : List ℚ
  walls : List Wall3D
deriving DecidableEq

/-- `reconstruct_building` (lines 15-72): an empty floor-plan list or an
empty elevation list raises `ValueError` (lines 32-35, checked in that
order); otherwise the model is assembled from the inferred floor heights
and the lifted walls. -/
def reconstruct_building (floor_plans : List FloorPlan) (elevations : List Elevation) :
    Except String BuildingModel :=
  if floor_plans.isEmpty then .error ("At least one floor plan is required")
  else if elevations.isEmpty then .error ("At least one elevation is required")
  else
    let floor_heights := extract_floor_heights elevations
    .ok ⟨floor_heights, create_walls floor_plans floor_heights⟩

/-! ## Theorems -/

/-- Claim C2 (amended): wall orientation is `horizontal` for angles in
`[0,45) ∪ [135,180)` and `diagonal` for the rest of `[0,180)`; the
`vertical` tag is never produced, because the diagonal overwrite on
`[45,135)` covers exactly the range the first statement tagged vertical.
The enriched wall record carries exactly this classification. -/
theorem orientation_buckets (angle : ℚ) (h0 : 0 ≤ angle) (h1 : angle < 180) :
    (classifyOrientation angle
        = if angle < 45 ∨ 135 ≤ angle then "horizontal" else "diagonal")
    ∧ classifyOrientation angle ≠ "vertical"
    ∧ ∀ pts len th, (enrichWall pts len th angle).tag = classifyOrientation angle := by
  have hcl : classifyOrientation angle
      = if 45 ≤ angle ∧ angle < 135 then "diagonal"
        else if (0 ≤ angle ∧ angle < 45) ∨ (135 ≤ angle ∧ angle < 180)
          then "horizontal" else "vertical" := rfl
  refine ⟨?_, ?_, fun pts len th => rfl⟩
  · by_cases hd : 45 ≤ angle ∧ angle < 135
    · have hcond : ¬(angle < 45 ∨ 135 ≤ angle) := by
        push_neg
        exact ⟨hd.1, hd.2⟩
      rw [hcl, if_pos hd, if_neg hcond]
    · have hh : (0 ≤ angle ∧ angle < 45) ∨ (135 ≤ angle ∧ angle < 180) := by
        rcases not_and_or.mp hd with h | h
        · exact Or.inl ⟨h0, lt_of_not_le h⟩
        · exact Or.inr ⟨le_of_not_lt h, h1⟩
      have hcond : angle < 45 ∨ 135 ≤ angle := by
        rcases hh with h | h
        · exact Or.inl h.2
        · exact Or.inr h.1
      rw [hcl, if_neg hd, if_pos hh, if_pos hcond]
  · by_cases hd : 45 ≤ angle ∧ angle < 135
    · rw [hcl, if_pos hd]
      decide
    · have hh : (0 ≤ angle ∧ angle < 45) ∨ (135 ≤ angle ∧ angle < 180) := by
        rcases not_and_or.mp hd with h | h
        · exact Or.inl ⟨h0, lt_of_not_le h⟩
        · exact Or.inr ⟨le_of_not_lt h, h1⟩
      rw [hcl, if_neg hd, if_pos hh]
      decide

/-- Witness for `orientation_buckets` at the concrete angle 90. -/
theorem orientation_buckets_witness : classifyOrientation 90 ≠ "vertical" :=
  (orientation_buckets 90 (by norm_num) (by norm_num)).2.1

/-- Counterexample to claim C2 as stated: a wall at angle 90 (for example
endpoints (0,0) and (0,1)) is tagged `diagonal`, not `vertical`, so the
`diagonal` orientation is produced and the `vertical` branch is the
unreachable one. -/
theorem orientation_vertical_counterexample :
    classifyOrientation 90 = "diagonal" ∧ classifyOrientation 90 ≠ "vertical" := by
  constructor
  · norm_num [classifyOrientation]
  · have h90 : classifyOrientation 90 = "diagonal" := by norm_num [classifyOrientation]
    rw [h90]
    decide

/-- Claim C3: window subtype is a pure function of width and height with
the stated thresholds and strict boundaries; in particular a 100 × 50
window (ratio exactly 2, area 5000) and a 100 × 100 window (ratio 1, area
exactly 10000) are both `standard`. -/
theorem window_classification (w h : ℚ) (hh : 0 < h) :
    (2 < w / h → windowType w h = "horizontal")
    ∧ (w / h < 1 / 2 → windowType w h = "vertical")
    ∧ (1 / 2 ≤ w / h → w / h ≤ 2 → 10000 < w * h → windowType w h = "picture")
    ∧ (1 / 2 ≤ w / h → w / h ≤ 2 → w * h ≤ 10000 → windowType w h = "standard")
    ∧ (∀ ws : List DetectedWindow,
        (process_windows ws).map ProcessedWindow.window_type
          = ws.map fun win => windowType win.width win.height)
    ∧ windowType 100 50 = "standard"
    ∧ windowType 100 100 = "standard" := by
  have ha : windowAspect w h = w / h := by simp [windowAspect, hh]
  refine ⟨?_, ?_, ?_, ?_, ?_, ?_, ?_⟩
  · intro hgt
    simp only [windowType, ha]
    rw [if_pos hgt]
  · intro hlt
    simp only [windowType, ha]
    rw [if_neg (by simp only [gt_iff_lt, not_lt]; nlinarith), if_pos hlt]
  · intro hge hle hba
    simp only [windowType, ha]
    rw [if_neg (by simp only [gt_iff_lt, not_lt]; nlinarith),
      if_neg (by simp only [not_lt]; nlinarith), if_pos hba]
  · intro hge hle hba
    simp only [windowType, ha]
    rw [if_neg (by simp only [gt_iff_lt, not_lt]; nlinarith),
      if_neg (by simp only [not_lt]; nlinarith),
      if_neg (by simp only [gt_iff_lt, not_lt]; nlinarith)]
  · intro ws
    simp [process_windows, List.map_map, Function.comp]
  · norm_num [windowType, windowAspect]
  · norm_num [windowType, windowAspect]

/-- Witness for `window_classification` at the 100 × 50 boundary window. -/
theorem window_classification_witness : windowType 100 50 = "standard" :=
  (window_classification 100 50 (by norm_num)).2.2.2.2.2.1

/-- Claim C10: a window of height 0 never divides by zero — the guarded
aspect ratio is 0 — and the degenerate window is classified `vertical`. -/
theorem degenerate_window_guard (width : ℚ) :
    windowAspect width 0 = 0 ∧ windowType width 0 = "vertical" := by
  constructor
  · simp [windowAspect]
  · norm_num [windowType, windowAspect]

/-- Claim C7: for any calibration with nonzero pixel and real lengths,
`pixels_to_real` inverts `real_to_pixels` exactly over exact arithmetic,
since both use the one stored nonzero scale factor. -/
theorem scale_round_trip (s : Scales) (image_id unit : String) (pl rl v : ℚ)
    (hpl : pl ≠ 0) (hrl : rl ≠ 0) (hv : 0 < v) :
    pixels_to_real (set_scale s image_id pl rl unit).1 image_id
      (real_to_pixels (set_scale s image_id pl rl unit).1 image_id v) = v := by
  have hf : rl / pl ≠ 0 := div_ne_zero hrl hpl
  simp only [pixels_to_real, real_to_pixels, set_scale, get_scale, if_pos rfl,
    Option.getD_some]
  exact div_mul_cancel₀ v hf

/-- Witness for `scale_round_trip`: calibration 2 px = 10 m, length 5. -/
theorem scale_round_trip_witness :
    pixels_to_real (set_scale Scales.empty ("plan") 2 10 ("meters")).1 ("plan")
      (real_to_pixels (set_scale Scales.empty ("plan") 2 10 ("meters")).1 ("plan") 5)
      = 5 :=
  scale_round_trip Scales.empty ("plan") ("meters") 2 10 5 (by norm_num) (by norm_num)
    (by norm_num)

/-- Claim C9 (amended): the backend converter never raises for an
uncalibrated image id — `get_scale` silently falls back to scale factor
1.0, so both conversions act as the identity; only the deployment-tier
converter's conversions raise the no-scale `ValueError`. -/
theorem uncalibrated_conversion_defaults (s : Scales) (ds : DeployScales)
    (image_id : String) (v : ℚ) (hs : s image_id = none) (hds : ds image_id = none) :
    pixels_to_real s image_id v = v
    ∧ real_to_pixels s image_id v = v
    ∧ get_scale s image_id = ⟨1, "meters"⟩
    ∧ pixels_to_real_world ds image_id v ("meters")
        = Except.error ("No scale factor set for image " ++ image_id)
    ∧ real_world_to_pixels ds image_id v ("meters")
        = Except.error ("No scale factor set for image " ++ image_id) := by
  refine ⟨?_, ?_, ?_, ?_, ?_⟩ <;>
    simp [pixels_to_real, real_to_pixels, get_scale, pixels_to_real_world,
      real_world_to_pixels, hs, hds]

/-- Witness for `uncalibrated_conversion_defaults` on fresh converters. -/
theorem uncalibrated_conversion_defaults_witness :
    pixels_to_real Scales.empty ("plan") 5 = 5
    ∧ real_to_pixels Scales.empty ("plan") 5 = 5
    ∧ get_scale Scales.empty ("plan") = ⟨1, "meters"⟩
    ∧ pixels_to_real_world DeployScales.empty ("plan") 5 ("meters")
        = Except.error ("No scale factor set for image " ++ "plan")
    ∧ real_world_to_pixels DeployScales.empty ("plan") 5 ("meters")
        = Except.error ("No scale factor set for image " ++ "plan") :=
  uncalibrated_conversion_defaults Scales.empty DeployScales.empty ("plan") 5 rfl rfl

/-- Counterexample to claim C9 as stated: the cited backend
`pixels_to_real` and `real_to_pixels` return plain values for an image id
that was never calibrated — there is no raising code path in the backend
converter, the lookup defaults to scale factor 1.0. -/
theorem uncalibrated_no_error_counterexample :
    pixels_to_real Scales.empty ("plan") 5 = 5
    ∧ real_to_pixels Scales.empty ("plan") 5 = 5
    ∧ get_scale Scales.empty ("plan") = ⟨1, "meters"⟩ := by
  refine ⟨?_, ?_, ?_⟩ <;>
    simp [pixels_to_real, real_to_pixels, get_scale, Scales.empty]

/-- Claim C8 (amended): every emitted room clears the noise floor with
`area ≥ 1000` (the filter discards only `area < 1000`, so area exactly
1000 survives), and the recorded area is the contour area of its points. -/
theorem room_area_floor (cs : List (List (ℤ × ℤ))) (r : Room)
    (hr : r ∈ extract_rooms cs) :
    1000 ≤ r.area ∧ r.area = contourArea r.points := by
  have hr' : ∃ pts ∈ cs,
      (if contourArea pts < 1000 then none
        else some (⟨pts, contourArea pts⟩ : Room)) = some r := by
    simpa [extract_rooms] using hr
  rcases hr' with ⟨pts, hpts, hsome⟩
  by_cases hlt : contourArea pts < 1000
  · rw [if_pos hlt] at hsome
    exact absurd hsome (by simp)
  · rw [if_neg hlt] at hsome
    have hreq := Option.some.inj hsome
    subst hreq
    exact ⟨not_lt.mp hlt, rfl⟩

/-- Witness for `room_area_floor`: a 100 × 20 rectangular region of
contour area 2000 is emitted and satisfies the floor. -/
theorem room_area_floor_witness :
    1000 ≤ (Room.mk [(0, 0), (100, 0), (100, 20), (0, 20)] 2000).area := by
  have hxr : extract_rooms [[(0, 0), (100, 0), (100, 20), (0, 20)]]
      = [⟨[(0, 0), (100, 0), (100, 20), (0, 20)], 2000⟩] := by
    norm_num [extract_rooms, contourArea, List.rotate, List.filterMap]
  exact (room_area_floor [[(0, 0), (100, 0), (100, 20), (0, 20)]]
    ⟨[(0, 0), (100, 0), (100, 20), (0, 20)], 2000⟩
    (by rw [hxr]; exact List.mem_singleton.mpr rfl)).1

/-- Counterexample to claim C8 as stated: a 50 × 20 rectangular region has
contour area exactly 1000 — which does not exceed 1000 — yet it appears in
the returned room list, because the source filter only skips `area < 1000`. -/
theorem room_area_counterexample :
    ∃ r ∈ extract_rooms [[(0, 0), (50, 0), (50, 20), (0, 20)]],
      r.area = 1000 ∧ ¬ 1000 < r.area := by
  have hxr : extract_rooms [[(0, 0), (50, 0), (50, 20), (0, 20)]]
      = [⟨[(0, 0), (50, 0), (50, 20), (0, 20)], 1000⟩] := by
    norm_num [extract_rooms, contourArea, List.rotate, List.filterMap]
  exact ⟨⟨[(0, 0), (50, 0), (50, 20), (0, 20)], 1000⟩,
    by rw [hxr]; exact List.mem_singleton.mpr rfl, rfl, by norm_num⟩

/-- The transition indices of any binary profile are strictly increasing:
they are a filtered initial-segment range. -/
theorem transitionIndices_sorted (bp : List ℕ) :
    (transitionIndices bp).Sorted (· < ·) :=
  (List.sorted_lt_range _).sublist (List.filter_sublist _)

/-- A per-sample thickness, when one is produced, is at least one pixel:
with two or more strictly increasing transition indices the distance from
first to last transition is positive. -/
theorem profileThickness_one_le {p : List ℕ} {t : ℕ}
    (h : profileThickness p = some t) : 1 ≤ t := by
  unfold profileThickness at h
  by_cases hlen : 2 ≤ (transitionIndices (binaryProfile p)).length
  · rw [if_pos hlen] at h
    have hsorted := transitionIndices_sorted (binaryProfile p)
    rcases hti : transitionIndices (binaryProfile p) with _ | ⟨a, tl⟩
    · rw [hti] at hlen
      simp at hlen
    rcases tl with _ | ⟨b, tl'⟩
    · rw [hti] at hlen
      simp at hlen
    rw [hti] at hsorted h
    have hgl : (b :: tl').getLast? = some ((b :: tl').getLast (List.cons_ne_nil b tl')) :=
      List.getLast?_eq_getLast_of_ne_nil (List.cons_ne_nil b tl')
    have hmem : (b :: tl').getLast (List.cons_ne_nil b tl') ∈ b :: tl' :=
      List.getLast_mem (List.cons_ne_nil b tl')
    have hab : a < (b :: tl').getLast (List.cons_ne_nil b tl') :=
      (List.pairwise_cons.mp hsorted).1 _ hmem
    have ht : (b :: tl').getLast (List.cons_ne_nil b tl') - a = t := by
      have := Option.some.inj h
      rwa [List.getLast?_cons_cons, hgl] at this
    omega
  · rw [if_neg hlen] at h
    exact absurd h (by simp)

/-- A list of naturals that are all at least 1 has rational sum at least
its length. -/
theorem length_le_sum_cast (ts : List ℕ) (h : ∀ t ∈ ts, 1 ≤ t) :
    (ts.length : ℚ) ≤ (ts.map fun (t : ℕ) => (t : ℚ)).sum := by
  induction ts with
  | nil => simp
  | cons a tl ih =>
    simp only [List.map_cons, List.sum_cons, List.length_cons]
    have h1 : 1 ≤ a := h a (by simp)
    have h1q : (1 : ℚ) ≤ (a : ℚ) := by exact_mod_cast h1
    have h2 := ih fun t ht => h t (by simp [ht])
    rw [Nat.cast_add, Nat.cast_one]
    linarith

/-- Claim C6: the wall-thickness estimate is at least the documented floor
of 1.0 for every list of sampled perpendicular profiles; it is exactly the
default 1.0 when no sample yields a transition pair, and otherwise it is
the mean of the per-sample transition distances, each of which is at
least 1. -/
theorem thickness_floor (profiles : List (List ℕ)) :
    1 ≤ estimate_wall_thickness profiles
    ∧ ((∀ p ∈ profiles, profileThickness p = none) →
        estimate_wall_thickness profiles = 1)
    ∧ (∀ t ∈ profiles.filterMap profileThickness, 1 ≤ t)
    ∧ (profiles.filterMap profileThickness ≠ [] →
        estimate_wall_thickness profiles
          = ((profiles.filterMap profileThickness).map fun (t : ℕ) => (t : ℚ)).sum
              / (profiles.filterMap profileThickness).length) := by
  have hmem : ∀ t ∈ profiles.filterMap profileThickness, 1 ≤ t := by
    intro t ht
    rcases List.mem_filterMap.mp ht with ⟨p, _, hp⟩
    exact profileThickness_one_le hp
  have hcases : estimate_wall_thickness profiles
      = if (profiles.filterMap profileThickness).isEmpty then 1
        else ((profiles.filterMap profileThickness).map fun (t : ℕ) => (t : ℚ)).sum
          / (profiles.filterMap profileThickness).length := rfl
  by_cases hemp : profiles.filterMap profileThickness = []
  · have he : estimate_wall_thickness profiles = 1 := by
      rw [hcases, hemp]
      rfl
    exact ⟨le_of_eq he.symm, fun _ => he, hmem, fun hne => absurd hemp hne⟩
  · have hlen0 : 0 < (profiles.filterMap profileThickness).length :=
      List.length_pos.mpr hemp
    have he : estimate_wall_thickness profiles
        = ((profiles.filterMap profileThickness).map fun (t : ℕ) => (t : ℚ)).sum
          / (profiles.filterMap profileThickness).length := by
      rw [hcases, if_neg (by simp [List.isEmpty_iff, hemp])]
    have hq : (0 : ℚ) < (profiles.filterMap profileThickness).length := by
      exact_mod_cast hlen0
    have hone : 1 ≤ ((profiles.filterMap profileThickness).map fun (t : ℕ) => (t : ℚ)).sum
        / (profiles.filterMap profileThickness).length := by
      rw [le_div_iff₀ hq, one_mul]
      exact length_le_sum_cast _ hmem
    refine ⟨he ▸ hone, ?_, hmem, fun _ => he⟩
    intro hall
    exact absurd (List.filterMap_eq_nil_iff.mpr hall) hemp

/-- Witness for `thickness_floor`: one profile crossing the dark band
twice yields per-sample thickness 2, so the estimate is 2 ≥ 1. -/
theorem thickness_floor_witness :
    1 ≤ estimate_wall_thickness [[200, 0, 0, 200]]
    ∧ estimate_wall_thickness [[200, 0, 0, 200]] = 2 := by
  have h1 : List.filterMap profileThickness [[200, 0, 0, 200]] = [2] := by
    norm_num [profileThickness, binaryProfile, transitionIndices, List.range_succ,
      List.filterMap, List.filter]
  exact ⟨(thickness_floor [[200, 0, 0, 200]]).1,
    by norm_num [estimate_wall_thickness, h1]⟩

/-- The duplicate-collapsing loop only drops elements: its result is a
sublist of its input. -/
theorem dedupLoop_sublist : ∀ (ls : List ℚ) (lastKept : ℚ),
    List.Sublist (dedupLoop lastKept ls) ls := by
  intro ls
  induction ls with
  | nil => intro lastKept; exact List.Sublist.refl _
  | cons l tl ih =>
    intro lastKept
    by_cases hc : ratAbs (l - lastKept) > 1 / 2
    · show List.Sublist (if ratAbs (l - lastKept) > 1 / 2 then l :: dedupLoop l tl
        else dedupLoop lastKept tl) (l :: tl)
      rw [if_pos hc]
      exact (ih l).cons₂ l
    · show List.Sublist (if ratAbs (l - lastKept) > 1 / 2 then l :: dedupLoop l tl
        else dedupLoop lastKept tl) (l :: tl)
      rw [if_neg hc]
      exact (ih lastKept).cons l

/-- The surviving unique levels are a sublist of the sorted levels. -/
theorem uniqueLevels_sublist (l : List ℚ) : List.Sublist (uniqueLevels l) l := by
  cases l with
  | nil => exact List.Sublist.refl _
  | cons x xs => exact (dedupLoop_sublist xs x).cons₂ x

/-- In a non-increasing list the last element is a lower bound. -/
theorem sorted_ge_getLast_le : ∀ (l : List ℚ), l.Sorted (· ≥ ·) →
    ∀ x ∈ l, l.getLast?.getD 0 ≤ x := by
  intro l
  induction l with
  | nil => intro _ x hx; simp at hx
  | cons a tl ih =>
    intro hs x hx
    cases tl with
    | nil =>
      rw [List.mem_singleton] at hx
      subst hx
      simp
    | cons b tl' =>
      rw [List.getLast?_cons_cons]
      have hg : (b :: tl').getLast? = some ((b :: tl').getLast (List.cons_ne_nil b tl')) :=
        List.getLast?_eq_getLast_of_ne_nil (List.cons_ne_nil b tl')
      rcases List.mem_cons.mp hx with rfl | hx'
      · have hgmem : (b :: tl').getLast (List.cons_ne_nil b tl') ∈ b :: tl' :=
          List.getLast_mem (List.cons_ne_nil b tl')
        have := (List.pairwise_cons.mp hs).1 _ hgmem
        rw [hg]
        exact this
      · exact ih (List.pairwise_cons.mp hs).2 x hx'

/-- Setting the last position of a list to the value it already holds is
the identity. -/
theorem set_last_eq_self {α : Type} : ∀ (l : List α) (a : α),
    l.getLast? = some a → l.set (l.length - 1) a = l := by
  intro l
  induction l with
  | nil => intro a h; simp at h
  | cons x tl ih =>
    intro a h
    cases tl with
    | nil =>
      have hx : x = a := by simpa using h
      subst hx
      rfl
    | cons y tl' =>
      rw [List.getLast?_cons_cons] at h
      show (x :: y :: tl').set (tl'.length + 1) a = x :: y :: tl'
      rw [List.set_cons_succ]
      have := ih a h
      rw [show (y :: tl').length - 1 = tl'.length from rfl] at this
      rw [this]

/-- Ground-subtraction step on any non-increasing non-empty level list:
the height list stays non-increasing, ends in exactly 0 and is pointwise
non-negative — also after the final force-to-0 write, which rewrites the
last entry with the 0 it already holds. -/
theorem heights_spec (u : List ℚ) (hs : u.Sorted (· ≥ ·)) (hne : u ≠ []) :
    ((u.map fun l => l - u.getLast?.getD 0).set
      ((u.map fun l => l - u.getLast?.getD 0).length - 1) 0).Sorted (· ≥ ·)
    ∧ ((u.map fun l => l - u.getLast?.getD 0).set
      ((u.map fun l => l - u.getLast?.getD 0).length - 1) 0).getLast? = some 0
    ∧ ∀ x ∈ (u.map fun l => l - u.getLast?.getD 0).set
      ((u.map fun l => l - u.getLast?.getD 0).length - 1) 0, 0 ≤ x := by
  obtain ⟨gl, hgl⟩ : ∃ gl, u.getLast? = some gl :=
    ⟨_, List.getLast?_eq_getLast_of_ne_nil hne⟩
  have hlast : (u.map fun l => l - u.getLast?.getD 0).getLast? = some 0 := by
    rw [List.getLast?_map, hgl]
    simp
  have hset : (u.map fun l => l - u.getLast?.getD 0).set
      ((u.map fun l => l - u.getLast?.getD 0).length - 1) 0
      = u.map fun l => l - u.getLast?.getD 0 :=
    set_last_eq_self _ 0 hlast
  rw [hset]
  refine ⟨?_, hlast, ?_⟩
  · exact List.Pairwise.map _ (fun a b hab => sub_le_sub_right hab _) hs
  · intro x hx
    rcases List.mem_map.mp hx with ⟨a, ha, rfl⟩
    have hle := sorted_ge_getLast_le u hs a ha
    show 0 ≤ a - u.getLast?.getD 0
    linarith

/-- The three floor-height facts on any input with at least one pooled
level: the result of `_extract_floor_heights` is non-increasing, its last
entry is exactly 0, and every entry is non-negative. -/
theorem extract_floor_heights_spec (es : List Elevation) (hne : es.flatten ≠ []) :
    (extract_floor_heights es).Sorted (· ≥ ·)
    ∧ (extract_floor_heights es).getLast? = some 0
    ∧ ∀ x ∈ extract_floor_heights es, 0 ≤ x := by
  have hflat : es.flatten.isEmpty = false := by
    rcases hs : es.flatten with _ | ⟨a, l⟩
    · exact absurd hs hne
    · rfl
  have hsne : es.flatten.insertionSort (· ≥ ·) ≠ [] := by
    intro h0
    have hperm := List.perm_insertionSort (· ≥ ·) es.flatten
    rw [h0] at hperm
    exact hne hperm.symm.eq_nil
  have huniq_ne : uniqueLevels (es.flatten.insertionSort (· ≥ ·)) ≠ [] := by
    rcases hs0 : es.flatten.insertionSort (· ≥ ·) with _ | ⟨a, l⟩
    · exact absurd hs0 hsne
    · simp [uniqueLevels]
  have huniq_s : (uniqueLevels (es.flatten.insertionSort (· ≥ ·))).Sorted (· ≥ ·) :=
    (List.sorted_insertionSort _ _).sublist (uniqueLevels_sublist _)
  have hE : extract_floor_heights es
      = ((uniqueLevels (es.flatten.insertionSort (· ≥ ·))).map
          fun l => l - (uniqueLevels (es.flatten.insertionSort (· ≥ ·))).getLast?.getD 0).set
        (((uniqueLevels (es.flatten.insertionSort (· ≥ ·))).map
          fun l => l - (uniqueLevels (es.flatten.insertionSort (· ≥ ·))).getLast?.getD 0).length
          - 1) 0 := by
    simp only [extract_floor_heights]
    rw [if_neg (by simp [hflat])]
  rw [hE]
  exact heights_spec _ huniq_s huniq_ne

/-- Claim C1 (amended): for every reconstruction run whose elevations
yield at least one floor level, the `floors` list of the returned model is
monotonically non-increasing (descending heights), its minimum element
equals 0, and that 0 is the last entry — the source sorts levels top-down
and pins the lowest (last) entry to 0, so the list is descending, not
ascending. -/
theorem floors_descending_ground_last (fps : List FloorPlan) (es : List Elevation)
    (bm : BuildingModel) (hrun : reconstruct_building fps es = Except.ok bm)
    (hne : es.flatten ≠ []) :
    bm.floors.Sorted (· ≥ ·)
    ∧ bm.floors.getLast? = some 0
    ∧ ∀ x ∈ bm.floors, 0 ≤ x := by
  have hesE : es.isEmpty = false := by
    rcases h : es with _ | ⟨e, es'⟩
    · subst h
      simp at hne
    · rfl
  have hfpE : fps.isEmpty = false := by
    rcases h : fps with _ | ⟨fp, fps'⟩
    · subst h
      unfold reconstruct_building at hrun
      simp at hrun
    · rfl
  unfold reconstruct_building at hrun
  rw [if_neg (by simp [hfpE]), if_neg (by simp [hesE])] at hrun
  obtain rfl := Except.ok.inj hrun
  exact extract_floor_heights_spec es hne

/-- Witness for `floors_descending_ground_last`: one empty floor plan and
one elevation with levels 0 and 3 yield the floors list `[3, 0]`. -/
theorem floors_descending_ground_last_witness :
    ([3, 0] : List ℚ).Sorted (· ≥ ·)
    ∧ ([3, 0] : List ℚ).getLast? = some 0
    ∧ ∀ x ∈ ([3, 0] : List ℚ), 0 ≤ x := by
  have hH : extract_floor_heights [[0, 3]] = [3, 0] := by
    norm_num [extract_floor_heights, uniqueLevels, dedupLoop, ratAbs,
      List.insertionSort, List.orderedInsert]
  have hW : create_walls [⟨[]⟩] [3, 0] = [] := by
    simp [create_walls, List.enum, List.enumFrom]
  have hrun : reconstruct_building [⟨[]⟩] [[0, 3]]
      = Except.ok (⟨[3, 0], []⟩ : BuildingModel) := by
    simp [reconstruct_building, hH, hW]
  have h := floors_descending_ground_last [⟨[]⟩] [[0, 3]] ⟨[3, 0], []⟩ hrun (by simp)
  exact h

/-- Counterexample to claim C1 as stated: the same concrete run returns
floors `[3, 0]`, which is not ascending and whose first entry is 3, not 0. -/
theorem floors_ascending_counterexample :
    reconstruct_building [⟨[]⟩] [[0, 3]] = Except.ok (⟨[3, 0], []⟩ : BuildingModel)
    ∧ ¬ ([3, 0] : List ℚ).Sorted (· ≤ ·)
    ∧ ([3, 0] : List ℚ).head? ≠ some 0 := by
  refine ⟨?_, ?_, ?_⟩
  · have hH : extract_floor_heights [[0, 3]] = [3, 0] := by
      norm_num [extract_floor_heights, uniqueLevels, dedupLoop, ratAbs,
        List.insertionSort, List.orderedInsert]
    have hW : create_walls [⟨[]⟩] [3, 0] = [] := by
      simp [create_walls, List.enum, List.enumFrom]
    simp [reconstruct_building, hH, hW]
  · norm_num [List.sorted_cons]
  · norm_num

/-- Claim C4: reconstruction with an empty floor-plan list, or with a
non-empty floor-plan list but an empty elevation list, raises the
insufficient-input `ValueError` and produces no building model. -/
theorem reconstruct_requires_inputs (es : List Elevation) (fps : List FloorPlan)
    (hfp : fps ≠ []) :
    reconstruct_building [] es = Except.error ("At least one floor plan is required")
    ∧ reconstruct_building fps []
        = Except.error ("At least one elevation is required") := by
  constructor
  · rfl
  · unfold reconstruct_building
    rw [if_neg (by simp [hfp])]
    rfl

/-- Witness for `reconstruct_requires_inputs` on concrete empty inputs. -/
theorem reconstruct_requires_inputs_witness :
    reconstruct_building [] [] = Except.error ("At least one floor plan is required")
    ∧ reconstruct_building [⟨[]⟩] []
        = Except.error ("At least one elevation is required") :=
  reconstruct_requires_inputs [] [⟨[]⟩] (by simp)

/-- Claim C5: wall lifting gives every lifted wall of floor `i` the base
height `floorHeights[i]` and the height `floorHeights[i-1] - floorHeights[i]`
— the next taller floor under the descending height convention — with the
3.0 default for `i = 0`, carrying the source wall's thickness or the 0.2
default; and every 2D wall with at least two points on floor `i` is
lifted exactly so.  The hypothesis keeps every floor index within the
height list, where Python's `floor_heights[i-1]` lookup is defined. -/
theorem wall_lifting (fps : List FloorPlan) (hs : List ℚ)
    (hlen : fps.length ≤ hs.length) :
    (∀ w3 ∈ create_walls fps hs, ∃ i, ∃ hi : i < fps.length,
      ∃ w ∈ (fps.get ⟨i, hi⟩).walls, 2 ≤ w.points.length ∧
        w3 = ⟨w.points,
          (if 0 < i then hs.getD (i - 1) 0 else hs.getD i 0 + 3) - hs.getD i 0,
          hs.getD i 0, w.thickness.getD (1 / 5)⟩)
    ∧ (∀ (i : ℕ) (hi : i < fps.length), ∀ w ∈ (fps.get ⟨i, hi⟩).walls,
        2 ≤ w.points.length →
        (⟨w.points,
          (if 0 < i then hs.getD (i - 1) 0 else hs.getD i 0 + 3) - hs.getD i 0,
          hs.getD i 0, w.thickness.getD (1 / 5)⟩ : Wall3D) ∈ create_walls fps hs) := by
  constructor
  · intro w3 hw3
    unfold create_walls at hw3
    rcases List.mem_flatten.mp hw3 with ⟨seg, hseg, hw3'⟩
    rcases List.mem_map.mp hseg with ⟨p, hp, rfl⟩
    have hp' : fps.get? p.1 = some p.2 := List.mem_enum_iff_get?.mp hp
    rcases List.get?_eq_some.mp hp' with ⟨hlt, hget⟩
    dsimp only at hw3'
    rcases List.mem_filterMap.mp hw3' with ⟨w, hwmem, hwsome⟩
    by_cases h2 : 2 ≤ w.points.length
    · rw [if_pos h2] at hwsome
      refine ⟨p.1, hlt, w, ?_, h2, (Option.some.inj hwsome).symm⟩
      rw [hget]
      exact hwmem
    · rw [if_neg h2] at hwsome
      exact absurd hwsome (by simp)
  · intro i hi w hw h2
    unfold create_walls
    apply List.mem_flatten.mpr
    refine ⟨_, List.mem_map.mpr ⟨(i, fps.get ⟨i, hi⟩), ?_, rfl⟩, ?_⟩
    · exact List.mem_enum_iff_get?.mpr (by simp [List.get?_eq_get hi])
    · dsimp only
      apply List.mem_filterMap.mpr
      exact ⟨w, hw, by rw [if_pos h2]⟩

/-- Witness for `wall_lifting`: floor heights `[0, 3]` with a single
two-point wall on floor 0 produce the one 3D wall with base 0, height 3
and the default thickness 0.2. -/
theorem wall_lifting_witness :
    (⟨[(0, 0), (1, 0)], 3, 0, 1 / 5⟩ : Wall3D) ∈
      create_walls [⟨[⟨[(0, 0), (1, 0)], none⟩]⟩, ⟨[]⟩] [0, 3] := by
  have h := (wall_lifting [⟨[⟨[(0, 0), (1, 0)], none⟩]⟩, ⟨[]⟩] [0, 3]
    (by norm_num)).2 0 (by norm_num) ⟨[(0, 0), (1, 0)], none⟩ (by simp) (by norm_num)
  simpa using h

end BuildingTo3D
